import Mathlib

/-!
# QupZilla location completer: `CompleterTreeView` and `LocationCompleterDelegate`

A shallow embedding of `src/lib/navigation/locationcompleterdelegate.cpp`.

* The C++ `int` is embedded as `Int`.  Signed overflow is undefined behaviour in
  C++, so it has no meaning to embed; every quantity here is a pixel metric.
  `/` on `int` truncates towards zero and is embedded as `Int.tdiv`.
* The two objects are embedded as records of the members the code reads and
  writes, plus the parts of the Qt base-class state that the code observes
  (`currentIndex()`, the maximum height, the number of `repaint()` requests).
* Member functions become functions from the state before to the state after.
  Qt code that the source calls but that lives outside the repository is either
  passed in as a parameter (default event handling, the hit test result, the
  font and style metrics) or recorded as a call.
-/

/-! ## Qt value types used by the source -/

/-- Qt's `QModelIndex`: a row, a column and the model it belongs to (`0` is the
null model pointer). `operator==` compares all components, which is the derived
equality. -/
structure QModelIndex where
  r : Int
  c : Int
  m : Nat
deriving DecidableEq, Repr

/-- The default-constructed `QModelIndex()`: row and column `-1`, no model. -/
def QModelIndex.default : QModelIndex := ⟨-1, -1, 0⟩

/-- Qt's `QModelIndex::isValid`: `(r >= 0) && (c >= 0) && (m != 0)`. -/
def QModelIndex.isValid (i : QModelIndex) : Bool :=
  decide (0 ≤ i.r) && decide (0 ≤ i.c) && decide (i.m ≠ 0)

/-- Qt's `QRect`, stored as its two corners like Qt does. -/
structure QRect where
  x1 : Int
  y1 : Int
  x2 : Int
  y2 : Int
deriving DecidableEq, Repr

/-- The constructor `QRect(x, y, width, height)`. -/
def QRect.ofXYWH (x y w h : Int) : QRect := ⟨x, y, x + w - 1, y + h - 1⟩

/-- Qt accessor `QRect::x()`. -/
def QRect.x (q : QRect) : Int := q.x1

/-- Qt accessor `QRect::left()`. -/
def QRect.left (q : QRect) : Int := q.x1

/-- Qt accessor `QRect::top()`. -/
def QRect.top (q : QRect) : Int := q.y1

/-- Qt accessor `QRect::right()`. -/
def QRect.right (q : QRect) : Int := q.x2

/-- Qt accessor `QRect::bottom()`. -/
def QRect.bottom (q : QRect) : Int := q.y2

/-- Qt accessor `QRect::width()`. -/
def QRect.width (q : QRect) : Int := q.x2 - q.x1 + 1

/-- Qt accessor `QRect::height()`. -/
def QRect.height (q : QRect) : Int := q.y2 - q.y1 + 1

/-- Qt's `QSize`. -/
structure QSize where
  width : Int
  height : Int
deriving DecidableEq, Repr

/-- The bits of `QStyle::State` that `paint` tests or changes
(`State_Selected`, `State_MouseOver`); `others` carries the remaining bits. -/
structure QStyleState where
  selected : Bool
  mouseOver : Bool
  others : Nat
deriving DecidableEq, Repr

/-- The palette roles `paint` chooses between. -/
inductive ColorRole where
  | Text
  | Link
  | HighlightedText
deriving DecidableEq, Repr

/-- What the source reads from the `QStyleOptionViewItem` handed in by the host
and from the style and fonts reached through it:
`opt.rect`, `opt.state`, `style->pixelMetric(PM_FocusFrameHMargin)`,
`opt.fontMetrics.leading()`, `opt.fontMetrics.height()` and the height of the
metrics of the title font (`opt.font` one point larger). -/
structure QStyleOptionViewItem where
  rect : QRect
  state : QStyleState
  focusFrameHMargin : Int
  leading : Int
  height : Int
  titleHeight : Int
deriving DecidableEq, Repr

/-! ## `CompleterTreeView` -/

/-- The members of `CompleterTreeView` together with the `QTreeView` state the
source observes: the selection model's current index, the maximum height last
requested through `setMaximumHeight`, and how many times `viewport()->repaint()`
was requested. -/
structure CompleterTreeView where
  m_selectedItemByMousePosition : Bool
  m_rowHeight : Int
  m_lastMouseIndex : QModelIndex
  currentIndex : QModelIndex
  maximumHeight : Int
  repaints : Nat
deriving DecidableEq, Repr

/-- The constructor: flag `false`, row height `0`, `m_lastMouseIndex`
default-constructed; a fresh view has no current index. `maxH` is the maximum
height the freshly built widget has. -/
def CompleterTreeView.new (maxH : Int) : CompleterTreeView :=
  { m_selectedItemByMousePosition := false
    m_rowHeight := 0
    m_lastMouseIndex := QModelIndex.default
    currentIndex := QModelIndex.default
    maximumHeight := maxH
    repaints := 0 }

/-- Source function `CompleterTreeView::ignoreSelectedFlag`: returns the flag. -/
def CompleterTreeView.ignoreSelectedFlag (v : CompleterTreeView) : Bool :=
  v.m_selectedItemByMousePosition

/-- Source function `CompleterTreeView::rowHeight`: returns `m_rowHeight`. -/
def CompleterTreeView.rowHeight (v : CompleterTreeView) : Int :=
  v.m_rowHeight

/-- Source function `CompleterTreeView::setRowHeight`: `m_rowHeight = height;` and
nothing else. -/
def CompleterTreeView.setRowHeight (v : CompleterTreeView) (height : Int) : CompleterTreeView :=
  { v with m_rowHeight := height }

/-- Qt function `QWidget::setMaximumHeight` as the source uses it: the view records the
height it was asked for. -/
def CompleterTreeView.setMaximumHeight (v : CompleterTreeView) (h : Int) : CompleterTreeView :=
  { v with maximumHeight := h }

/-- The request `viewport()->repaint()`. -/
def CompleterTreeView.repaint (v : CompleterTreeView) : CompleterTreeView :=
  { v with repaints := v.repaints + 1 }

/-- Source function `CompleterTreeView::currentChanged(current, previous)`: clears the flag,
stores `current` in `m_lastMouseIndex`, runs the base class handler (which
touches none of the recorded state) and repaints. The selection model has
already made `current` the current index when it delivers this call. -/
def CompleterTreeView.currentChanged (v : CompleterTreeView) (current _previous : QModelIndex) :
    CompleterTreeView :=
  let v1 := { v with m_selectedItemByMousePosition := false }
  let v2 := { v1 with m_lastMouseIndex := current }
  v2.repaint

/-- Source function `CompleterTreeView::mouseMoveEvent`, up to the final call of the base class
handler. `atCursor` is the result of `indexAt(mapFromGlobal(QCursor::pos()))`. -/
def CompleterTreeView.mouseMoveEvent (v : CompleterTreeView) (atCursor : QModelIndex) :
    CompleterTreeView :=
  let last := v.m_lastMouseIndex
  let v1 :=
    if atCursor.isValid then
      { v with m_lastMouseIndex := atCursor, m_selectedItemByMousePosition := true }
    else v
  if last ≠ atCursor then v1.repaint else v1

/-- Modelled from the spec: `QAbstractItemView::setCurrentIndex` (Qt, outside the
repository) "forces focus onto" the given row: the selection model makes `index`
the current index and, when that is a change, delivers it to the view through
`currentChanged(index, old)`. -/
def CompleterTreeView.setCurrentIndex (v : CompleterTreeView) (index : QModelIndex) :
    CompleterTreeView :=
  if index = v.currentIndex then v
  else CompleterTreeView.currentChanged { v with currentIndex := index } index v.currentIndex

/-- Source function `CompleterTreeView::keyPressEvent`. `base` is `QTreeView::keyPressEvent(event)`,
the default key handling the event is handed to at the end. -/
def CompleterTreeView.keyPressEvent (base : CompleterTreeView → CompleterTreeView)
    (v : CompleterTreeView) : CompleterTreeView :=
  let v1 := if v.currentIndex ≠ v.m_lastMouseIndex then v.setCurrentIndex v.m_lastMouseIndex else v
  base v1

/-! ## `LocationCompleterDelegate` -/

/-- The (mutable) members of `LocationCompleterDelegate`; `m_treeView` is the
`CompleterTreeView` passed alongside. -/
structure LocationCompleterDelegate where
  m_rowHeight : Int
  m_padding : Int
deriving DecidableEq, Repr

/-- The constructor: `m_rowHeight(0)`, `m_padding(0)`. -/
def LocationCompleterDelegate.new : LocationCompleterDelegate := ⟨0, 0⟩

/-- What one call of `paint` draws: the state handed to the background
primitive, the two text colour roles, the three rectangles, the left cursor
after the icon, and the widths the two texts are elided to. -/
structure Painted where
  state : QStyleState
  colorRole : ColorRole
  colorLinkRole : ColorRole
  iconRect : QRect
  leftPosition : Int
  titleRect : QRect
  titleElideWidth : Int
  linkRect : QRect
  linkElideWidth : Int
deriving DecidableEq, Repr

/-- Source function `LocationCompleterDelegate::paint`, statement by statement. -/
def LocationCompleterDelegate.paint (d : LocationCompleterDelegate) (v : CompleterTreeView)
    (option : QStyleOptionViewItem) : Painted :=
  let height := option.rect.height
  let center := Int.tdiv height 2 + option.rect.top
  let leftPosition := d.m_padding * 2
  let rightPosition := option.rect.right - d.m_padding
  let state :=
    if v.ignoreSelectedFlag then
      if option.state.mouseOver then { option.state with selected := true }
      else { option.state with selected := false }
    else option.state
  let colorRole := if state.selected then ColorRole.HighlightedText else ColorRole.Text
  let colorLinkRole := if state.selected then ColorRole.HighlightedText else ColorRole.Link
  let iconSize : Int := 16
  let iconYPos := center - Int.tdiv iconSize 2
  let iconRect := QRect.ofXYWH leftPosition iconYPos iconSize iconSize
  let leftPosition := iconRect.right + d.m_padding * 2
  let leftTitleEdge := leftPosition + 2
  let rightTitleEdge := rightPosition - d.m_padding
  let titleRect := QRect.ofXYWH leftTitleEdge (option.rect.top + d.m_padding)
    (rightTitleEdge - leftTitleEdge) option.titleHeight
  let infoYPos := titleRect.bottom + option.leading
  let linkRect := QRect.ofXYWH titleRect.x infoYPos titleRect.width option.height
  { state := state
    colorRole := colorRole
    colorLinkRole := colorLinkRole
    iconRect := iconRect
    leftPosition := leftPosition
    titleRect := titleRect
    titleElideWidth := titleRect.width
    linkRect := linkRect
    linkElideWidth := linkRect.width }

/-- The calls `sizeHint` makes on the style, the fonts and the view. -/
inductive Call where
  | initStyleOption
  | pixelMetric_FocusFrameHMargin
  | fontMetrics_leading
  | fontMetrics_height
  | titleMetrics_height
  | setRowHeight (h : Int)
  | setMaximumHeight (h : Int)
deriving DecidableEq, Repr

/-- Everything a call of `sizeHint` produces: the returned size, the delegate
and the view afterwards, and the calls made, in order. -/
structure SizeHinted where
  size : QSize
  delegate : LocationCompleterDelegate
  view : CompleterTreeView
  calls : List Call
deriving DecidableEq, Repr

/-- Source function `LocationCompleterDelegate::sizeHint`, statement by statement. -/
def LocationCompleterDelegate.sizeHint (d : LocationCompleterDelegate) (v : CompleterTreeView)
    (option : QStyleOptionViewItem) : SizeHinted :=
  if d.m_rowHeight = 0 then
    let padding := option.focusFrameHMargin + 1
    let m_padding := if padding > 3 then padding else 3
    let m_rowHeight := 2 * m_padding + option.leading + option.height + option.titleHeight
    let v1 := v.setRowHeight m_rowHeight
    let v2 := v1.setMaximumHeight (6 * m_rowHeight)
    { size := ⟨200, m_rowHeight⟩
      delegate := { m_rowHeight := m_rowHeight, m_padding := m_padding }
      view := v2
      calls := [Call.initStyleOption, Call.pixelMetric_FocusFrameHMargin,
        Call.fontMetrics_leading, Call.fontMetrics_height, Call.titleMetrics_height,
        Call.setRowHeight m_rowHeight, Call.setMaximumHeight (6 * m_rowHeight)] }
  else
    { size := ⟨200, d.m_rowHeight⟩, delegate := d, view := v, calls := [] }

/-! ## Event sequences on the view -/

/-- Modelled from the spec: the default key handling `QTreeView::keyPressEvent`
(Qt, outside the repository) for a flat model of `rowCount` rows: "ArrowDown
moves focus to the next row if there is one and fires currentChanged"; other
keys leave the focus alone. -/
def QTreeView.keyPressEvent (rowCount : Int) (arrowDown : Bool) (v : CompleterTreeView) :
    CompleterTreeView :=
  if arrowDown && v.currentIndex.isValid && decide (v.currentIndex.r + 1 < rowCount) then
    v.setCurrentIndex { v.currentIndex with r := v.currentIndex.r + 1 }
  else v

/-- The events a view receives. A focus change is the selection model making
`current` the current index and delivering `currentChanged`; a pointer move
carries the hit test result; a key press carries what the default key handling
does with the focus afterwards (`none`: nothing, `some i`: moves it to `i`). -/
inductive ViewEvent where
  | focusChange (current : QModelIndex)
  | pointerMove (atCursor : QModelIndex)
  | keyPress (defaultMove : Option QModelIndex)
deriving DecidableEq, Repr

/-- One event applied to the view. -/
def CompleterTreeView.handle (v : CompleterTreeView) : ViewEvent → CompleterTreeView
  | ViewEvent.focusChange current =>
      CompleterTreeView.currentChanged { v with currentIndex := current } current v.currentIndex
  | ViewEvent.pointerMove atCursor => v.mouseMoveEvent atCursor
  | ViewEvent.keyPress none => CompleterTreeView.keyPressEvent (fun s => s) v
  | ViewEvent.keyPress (some i) => CompleterTreeView.keyPressEvent (fun s => s.setCurrentIndex i) v

/-- A sequence of events applied from left to right. -/
def CompleterTreeView.run (v : CompleterTreeView) (es : List ViewEvent) : CompleterTreeView :=
  es.foldl CompleterTreeView.handle v

/-! ## Shared lemmas -/

/-- The padding choice `padding > 3 ? padding : 3` is `max 3 padding`. -/
theorem padding_eq_max (p : Int) : (if p > 3 then p else 3) = max 3 p := by
  split
  · rw [max_eq_right]; omega
  · rw [max_eq_left]; omega

/-- A call of `sizeHint` on a delegate whose cached row height is not zero
changes nothing and calls nothing. -/
theorem sizeHint_cached (d : LocationCompleterDelegate) (v : CompleterTreeView)
    (option : QStyleOptionViewItem) (h : d.m_rowHeight ≠ 0) :
    d.sizeHint v option = { size := ⟨200, d.m_rowHeight⟩, delegate := d, view := v, calls := [] } := by
  unfold LocationCompleterDelegate.sizeHint
  rw [if_neg h]

/-- A call of `sizeHint` on a delegate whose cached row height is zero computes
padding and row height, caches them, and hands the row height and six times
the row height to the view. -/
theorem sizeHint_uncached (d : LocationCompleterDelegate) (v : CompleterTreeView)
    (option : QStyleOptionViewItem) (h : d.m_rowHeight = 0) :
    d.sizeHint v option =
      { size := ⟨200, 2 * max 3 (option.focusFrameHMargin + 1)
          + option.leading + option.height + option.titleHeight⟩
        delegate := ⟨2 * max 3 (option.focusFrameHMargin + 1)
          + option.leading + option.height + option.titleHeight,
          max 3 (option.focusFrameHMargin + 1)⟩
        view := (v.setRowHeight (2 * max 3 (option.focusFrameHMargin + 1)
          + option.leading + option.height + option.titleHeight)).setMaximumHeight
            (6 * (2 * max 3 (option.focusFrameHMargin + 1)
              + option.leading + option.height + option.titleHeight))
        calls := [Call.initStyleOption, Call.pixelMetric_FocusFrameHMargin,
          Call.fontMetrics_leading, Call.fontMetrics_height, Call.titleMetrics_height,
          Call.setRowHeight (2 * max 3 (option.focusFrameHMargin + 1)
            + option.leading + option.height + option.titleHeight),
          Call.setMaximumHeight (6 * (2 * max 3 (option.focusFrameHMargin + 1)
            + option.leading + option.height + option.titleHeight))] } := by
  unfold LocationCompleterDelegate.sizeHint
  rw [if_pos h]
  simp only [padding_eq_max]

/-! ## Row height (`sizeHint`) -/

/-- C1: the first `sizeHint` call (cached row height 0) sets the padding to
`max 3 (m + 1)` for focus-frame margin `m`, sets the row height to
`2 * padding + leading + height + titleHeight`, hands that row height to the
view and returns `(200, row height)`; with height 14, leading 3, title height 16
and margin 3 the padding is 4 and the row height is 41. -/
theorem sizeHint_first_call (pad : Int) (v : CompleterTreeView) (option : QStyleOptionViewItem) :
    ((LocationCompleterDelegate.mk 0 pad).sizeHint v option).delegate.m_padding
        = max 3 (option.focusFrameHMargin + 1)
    ∧ ((LocationCompleterDelegate.mk 0 pad).sizeHint v option).delegate.m_rowHeight
        = 2 * max 3 (option.focusFrameHMargin + 1)
          + option.leading + option.height + option.titleHeight
    ∧ ((LocationCompleterDelegate.mk 0 pad).sizeHint v option).size
        = ⟨200, 2 * max 3 (option.focusFrameHMargin + 1)
          + option.leading + option.height + option.titleHeight⟩
    ∧ ((LocationCompleterDelegate.mk 0 pad).sizeHint v option).view.rowHeight
        = 2 * max 3 (option.focusFrameHMargin + 1)
          + option.leading + option.height + option.titleHeight
    ∧ (LocationCompleterDelegate.new.sizeHint v
          { option with focusFrameHMargin := 3, leading := 3, height := 14, titleHeight := 16 }).size
        = ⟨200, 41⟩
    ∧ (LocationCompleterDelegate.new.sizeHint v
          { option with focusFrameHMargin := 3, leading := 3, height := 14, titleHeight := 16 }
        ).delegate.m_padding = 4 := by
  rw [sizeHint_uncached ⟨0, pad⟩ v option rfl]
  exact ⟨rfl, rfl, rfl, rfl, rfl, rfl⟩

/-- C2 (as stated, refuted): on a fresh view with maximum height 16777215,
`setRowHeight 41` leaves the maximum height at 16777215, which is not `6 * 41`. -/
theorem setRowHeight_no_cap :
    ((CompleterTreeView.new 16777215).setRowHeight 41).rowHeight = 41
    ∧ ((CompleterTreeView.new 16777215).setRowHeight 41).maximumHeight = 16777215
    ∧ ((CompleterTreeView.new 16777215).setRowHeight 41).maximumHeight ≠ 6 * 41 := by
  decide

/-- C2 (amended): `setRowHeight h` makes `rowHeight` return `h` and changes nothing
else, the maximum height included; the cap is set by the delegate: after a
`sizeHint` call on a delegate with no cached row height the view's row height is
the computed one and its maximum height is six times its row height. -/
theorem setRowHeight_then_cap_by_sizeHint (pad h : Int) (v : CompleterTreeView)
    (option : QStyleOptionViewItem) :
    (v.setRowHeight h).rowHeight = h
    ∧ v.setRowHeight h = { v with m_rowHeight := h }
    ∧ (v.setRowHeight h).maximumHeight = v.maximumHeight
    ∧ ((LocationCompleterDelegate.mk 0 pad).sizeHint v option).view.rowHeight
        = ((LocationCompleterDelegate.mk 0 pad).sizeHint v option).delegate.m_rowHeight
    ∧ ((LocationCompleterDelegate.mk 0 pad).sizeHint v option).view.maximumHeight
        = 6 * ((LocationCompleterDelegate.mk 0 pad).sizeHint v option).view.rowHeight := by
  rw [sizeHint_uncached ⟨0, pad⟩ v option rfl]
  exact ⟨rfl, rfl, rfl, rfl, rfl⟩

/-- C3 (as stated, refuted): with margin 0, leading -6 and both font heights 0
the computed row height is `2 * 3 - 6 = 0`, so on a fresh delegate the second
`sizeHint` call queries the style metric again and writes to the view again. -/
theorem sizeHint_second_call_recomputes :
    ((LocationCompleterDelegate.new.sizeHint (CompleterTreeView.new 16777215)
        ⟨QRect.ofXYWH 0 0 200 0, ⟨false, false, 0⟩, 0, -6, 0, 0⟩).delegate.sizeHint
      (LocationCompleterDelegate.new.sizeHint (CompleterTreeView.new 16777215)
        ⟨QRect.ofXYWH 0 0 200 0, ⟨false, false, 0⟩, 0, -6, 0, 0⟩).view
      ⟨QRect.ofXYWH 0 0 200 0, ⟨false, false, 0⟩, 0, -6, 0, 0⟩).calls
    = [Call.initStyleOption, Call.pixelMetric_FocusFrameHMargin,
        Call.fontMetrics_leading, Call.fontMetrics_height, Call.titleMetrics_height,
        Call.setRowHeight 0, Call.setMaximumHeight 0] := by
  decide

/-- C3 (amended): two `sizeHint` calls in a row with the same option return the
same size, whatever the input; and when the row height cached after the first
call is not zero, the second call makes no call at all (no style or font query,
no `setRowHeight`, no `setMaximumHeight`) and leaves delegate and view as they
were. The cached row height is not zero in particular when the delegate starts
without one and `leading + height + titleHeight > -6`. -/
theorem sizeHint_twice (d : LocationCompleterDelegate) (v : CompleterTreeView)
    (option : QStyleOptionViewItem) :
    ((d.sizeHint v option).delegate.sizeHint (d.sizeHint v option).view option).size
        = (d.sizeHint v option).size
    ∧ ((d.sizeHint v option).delegate.m_rowHeight ≠ 0 →
        ((d.sizeHint v option).delegate.sizeHint (d.sizeHint v option).view option).calls = []
        ∧ ((d.sizeHint v option).delegate.sizeHint (d.sizeHint v option).view option).view
            = (d.sizeHint v option).view
        ∧ ((d.sizeHint v option).delegate.sizeHint (d.sizeHint v option).view option).delegate
            = (d.sizeHint v option).delegate)
    ∧ (d.m_rowHeight = 0 → -6 < option.leading + option.height + option.titleHeight →
        (d.sizeHint v option).delegate.m_rowHeight ≠ 0) := by
  refine ⟨?_, ?_, ?_⟩
  · by_cases h : (d.sizeHint v option).delegate.m_rowHeight = 0
    · by_cases h0 : d.m_rowHeight = 0
      · rw [sizeHint_uncached _ _ option h]
        rw [sizeHint_uncached d v option h0]
      · rw [sizeHint_cached d v option h0] at h
        exact absurd h h0
    · rw [sizeHint_cached _ _ option h]
      unfold LocationCompleterDelegate.sizeHint
      split <;> rfl
  · intro h
    rw [sizeHint_cached _ _ option h]
    exact ⟨rfl, rfl, rfl⟩
  · intro h0 hpos
    rw [sizeHint_uncached d v option h0]
    have : (3 : Int) ≤ max 3 (option.focusFrameHMargin + 1) := le_max_left _ _
    show 2 * max 3 (option.focusFrameHMargin + 1)
      + option.leading + option.height + option.titleHeight ≠ 0
    omega

/-- C3 witness: margin 3, leading 3, heights 14 and 16 on a fresh delegate: the
cached row height is 41, and the second call makes no call. -/
theorem sizeHint_twice_witness :
    ((LocationCompleterDelegate.new.sizeHint (CompleterTreeView.new 16777215)
        ⟨QRect.ofXYWH 0 0 200 41, ⟨false, false, 0⟩, 3, 3, 14, 16⟩).delegate.sizeHint
      (LocationCompleterDelegate.new.sizeHint (CompleterTreeView.new 16777215)
        ⟨QRect.ofXYWH 0 0 200 41, ⟨false, false, 0⟩, 3, 3, 14, 16⟩).view
      ⟨QRect.ofXYWH 0 0 200 41, ⟨false, false, 0⟩, 3, 3, 14, 16⟩).calls = [] :=
  ((sizeHint_twice LocationCompleterDelegate.new (CompleterTreeView.new 16777215)
    ⟨QRect.ofXYWH 0 0 200 41, ⟨false, false, 0⟩, 3, 3, 14, 16⟩).2.1 (by decide)).1

/-! ## Hover against focus (`CompleterTreeView`, selected bit in `paint`) -/

/-- The state `paint` hands on is the incoming one when the view's flag is off. -/
theorem paint_state_of_flag_off (d : LocationCompleterDelegate) (v : CompleterTreeView)
    (option : QStyleOptionViewItem) (h : v.ignoreSelectedFlag = false) :
    (d.paint v option).state = option.state := by
  simp [LocationCompleterDelegate.paint, h]

/-- C4: after `currentChanged newRow previousRow`, `ignoreSelectedFlag` is false
and the last-hovered row is `newRow` (focus and row height are untouched, one
repaint is requested); a paint that follows hands on every row's state as the
host supplied it, so when the host marks exactly `newRow` as selected, exactly
`newRow` is painted selected. -/
theorem currentChanged_focus_wins (v : CompleterTreeView) (newRow previousRow : QModelIndex) :
    (v.currentChanged newRow previousRow).ignoreSelectedFlag = false
    ∧ (v.currentChanged newRow previousRow).m_lastMouseIndex = newRow
    ∧ (v.currentChanged newRow previousRow).currentIndex = v.currentIndex
    ∧ (v.currentChanged newRow previousRow).rowHeight = v.rowHeight
    ∧ (v.currentChanged newRow previousRow).repaints = v.repaints + 1
    ∧ (∀ (d : LocationCompleterDelegate) (option : QStyleOptionViewItem),
        (d.paint (v.currentChanged newRow previousRow) option).state = option.state)
    ∧ (∀ (d : LocationCompleterDelegate) (option : QStyleOptionViewItem) (row : QModelIndex),
        ((d.paint (v.currentChanged newRow previousRow)
            { option with state := { option.state with selected := decide (row = newRow) } }
          ).state.selected = true ↔ row = newRow)) := by
  refine ⟨rfl, rfl, rfl, rfl, rfl, ?_, ?_⟩
  · intro d option
    exact paint_state_of_flag_off d (v.currentChanged newRow previousRow) option rfl
  · intro d option row
    rw [paint_state_of_flag_off d (v.currentChanged newRow previousRow) _ rfl]
    simp

/-- C5: the view's own handling of a pointer move changes neither the current
index nor the row height (nor the maximum height); when the hit test gives a
valid index the flag becomes true and the last-hovered row becomes that index;
when it gives an invalid index, flag and last-hovered row stay as they were. -/
theorem mouseMoveEvent_frame (v : CompleterTreeView) (atCursor : QModelIndex) :
    (v.mouseMoveEvent atCursor).currentIndex = v.currentIndex
    ∧ (v.mouseMoveEvent atCursor).rowHeight = v.rowHeight
    ∧ (v.mouseMoveEvent atCursor).maximumHeight = v.maximumHeight
    ∧ (atCursor.isValid = true →
        (v.mouseMoveEvent atCursor).ignoreSelectedFlag = true
        ∧ (v.mouseMoveEvent atCursor).m_lastMouseIndex = atCursor)
    ∧ (atCursor.isValid = false →
        (v.mouseMoveEvent atCursor).ignoreSelectedFlag = v.ignoreSelectedFlag
        ∧ (v.mouseMoveEvent atCursor).m_lastMouseIndex = v.m_lastMouseIndex) := by
  unfold CompleterTreeView.mouseMoveEvent
  by_cases hv : atCursor.isValid = true <;> by_cases hl : v.m_lastMouseIndex = atCursor <;>
    simp [hv, hl, CompleterTreeView.repaint, CompleterTreeView.rowHeight,
      CompleterTreeView.ignoreSelectedFlag]

/-- C5 at a concrete input: on a view focused on row 0 with the flag off, a
pointer move that hits row 2 turns the flag on and records row 2. -/
theorem mouseMoveEvent_frame_witness :
    (CompleterTreeView.mouseMoveEvent ⟨false, 41, ⟨0, 0, 1⟩, ⟨0, 0, 1⟩, 246, 0⟩
        ⟨2, 0, 1⟩).ignoreSelectedFlag = true
    ∧ (CompleterTreeView.mouseMoveEvent ⟨false, 41, ⟨0, 0, 1⟩, ⟨0, 0, 1⟩, 246, 0⟩
        ⟨2, 0, 1⟩).m_lastMouseIndex = ⟨2, 0, 1⟩ :=
  (mouseMoveEvent_frame ⟨false, 41, ⟨0, 0, 1⟩, ⟨0, 0, 1⟩, 246, 0⟩ ⟨2, 0, 1⟩).2.2.2.1 (by decide)

/-- C6: `keyPressEvent` hands the event to the default key handling in a state
whose current index is the last-hovered row (which it does not change); and in
a model of 5 rows with the flag on and last-hovered row 2, ArrowDown from any
current index ends with current index row 3 and the flag off. -/
theorem keyPressEvent_from_hovered_row (v : CompleterTreeView) :
    (∀ base : CompleterTreeView → CompleterTreeView,
        CompleterTreeView.keyPressEvent base v = base (CompleterTreeView.keyPressEvent id v))
    ∧ (CompleterTreeView.keyPressEvent id v).currentIndex = v.m_lastMouseIndex
    ∧ (CompleterTreeView.keyPressEvent id v).m_lastMouseIndex = v.m_lastMouseIndex
    ∧ (v.currentIndex = v.m_lastMouseIndex → CompleterTreeView.keyPressEvent id v = v)
    ∧ (CompleterTreeView.keyPressEvent (QTreeView.keyPressEvent 5 true)
          { v with m_selectedItemByMousePosition := true, m_lastMouseIndex := ⟨2, 0, 1⟩ }
        ).currentIndex = ⟨3, 0, 1⟩
    ∧ (CompleterTreeView.keyPressEvent (QTreeView.keyPressEvent 5 true)
          { v with m_selectedItemByMousePosition := true, m_lastMouseIndex := ⟨2, 0, 1⟩ }
        ).ignoreSelectedFlag = false := by
  refine ⟨fun _ => rfl, ?_, ?_, ?_, ?_, ?_⟩
  · unfold CompleterTreeView.keyPressEvent CompleterTreeView.setCurrentIndex
    by_cases h : v.currentIndex = v.m_lastMouseIndex
    · simp [h]
    · have h2 : ¬ v.m_lastMouseIndex = v.currentIndex := fun e => h e.symm
      simp [h, h2, CompleterTreeView.currentChanged, CompleterTreeView.repaint]
  · unfold CompleterTreeView.keyPressEvent CompleterTreeView.setCurrentIndex
    by_cases h : v.currentIndex = v.m_lastMouseIndex
    · simp [h]
    · have h2 : ¬ v.m_lastMouseIndex = v.currentIndex := fun e => h e.symm
      simp [h, h2, CompleterTreeView.currentChanged, CompleterTreeView.repaint]
  · intro h
    simp [CompleterTreeView.keyPressEvent, h]
  · by_cases h : v.currentIndex = ⟨2, 0, 1⟩
    · simp [CompleterTreeView.keyPressEvent, QTreeView.keyPressEvent,
        CompleterTreeView.setCurrentIndex, CompleterTreeView.currentChanged,
        CompleterTreeView.repaint, QModelIndex.isValid, h]
    · have h2 : ¬ (⟨2, 0, 1⟩ : QModelIndex) = v.currentIndex := fun e => h e.symm
      simp [CompleterTreeView.keyPressEvent, QTreeView.keyPressEvent,
        CompleterTreeView.setCurrentIndex, CompleterTreeView.currentChanged,
        CompleterTreeView.repaint, QModelIndex.isValid, h, h2]
  · by_cases h : v.currentIndex = ⟨2, 0, 1⟩
    · simp [CompleterTreeView.keyPressEvent, QTreeView.keyPressEvent,
        CompleterTreeView.setCurrentIndex, CompleterTreeView.currentChanged,
        CompleterTreeView.repaint, QModelIndex.isValid, h,
        CompleterTreeView.ignoreSelectedFlag]
    · have h2 : ¬ (⟨2, 0, 1⟩ : QModelIndex) = v.currentIndex := fun e => h e.symm
      simp [CompleterTreeView.keyPressEvent, QTreeView.keyPressEvent,
        CompleterTreeView.setCurrentIndex, CompleterTreeView.currentChanged,
        CompleterTreeView.repaint, QModelIndex.isValid, h, h2,
        CompleterTreeView.ignoreSelectedFlag]

/-- C7: the selected bit `paint` uses for the background state and for both text
colour roles is the row's mouse-over bit when `ignoreSelectedFlag` is true
(whatever the incoming selected bit) and the incoming selected bit when it is
false; the other state bits are handed on unchanged. -/
theorem paint_selected_bit (d : LocationCompleterDelegate) (v : CompleterTreeView)
    (option : QStyleOptionViewItem) :
    (d.paint v option).state.selected
        = (if v.ignoreSelectedFlag then option.state.mouseOver else option.state.selected)
    ∧ (d.paint v option).state.mouseOver = option.state.mouseOver
    ∧ (d.paint v option).state.others = option.state.others
    ∧ (d.paint v option).colorRole
        = (if (if v.ignoreSelectedFlag then option.state.mouseOver else option.state.selected)
            then ColorRole.HighlightedText else ColorRole.Text)
    ∧ (d.paint v option).colorLinkRole
        = (if (if v.ignoreSelectedFlag then option.state.mouseOver else option.state.selected)
            then ColorRole.HighlightedText else ColorRole.Link) := by
  unfold LocationCompleterDelegate.paint
  cases hf : v.ignoreSelectedFlag <;> cases hm : option.state.mouseOver <;>
    cases hs : option.state.selected <;> simp [hm, hs]

/-! ## Row geometry (`paint`) -/

/-- C8 (as stated, refuted): a row `QRect(0, 0, 20, 41)` with padding 3 is
narrower than what icon and padding take; `paint` gives the title and the link
rectangle the width `19 - 6 * 3 - 17 = -16`, which is negative. -/
theorem paint_narrow_row_negative_width :
    ((LocationCompleterDelegate.mk 41 3).paint (CompleterTreeView.new 16777215)
        ⟨QRect.ofXYWH 0 0 20 41, ⟨false, false, 0⟩, 2, 3, 14, 16⟩).titleRect.width = -16
    ∧ ((LocationCompleterDelegate.mk 41 3).paint (CompleterTreeView.new 16777215)
        ⟨QRect.ofXYWH 0 0 20 41, ⟨false, false, 0⟩, 2, 3, 14, 16⟩).linkRect.width = -16
    ∧ ¬ (0 ≤ ((LocationCompleterDelegate.mk 41 3).paint (CompleterTreeView.new 16777215)
        ⟨QRect.ofXYWH 0 0 20 41, ⟨false, false, 0⟩, 2, 3, 14, 16⟩).titleRect.width) := by
  decide

/-- C8 (amended): `paint` does not clamp. The title rectangle and the link
rectangle both have width `right - 6 * padding - 17`, where `right` is the
row rectangle's right edge; the texts are elided to that width; the width is
`>= 0` exactly when `6 * padding + 17 <= right`. The icon rectangle is 16 wide
in every case. -/
theorem paint_text_width (d : LocationCompleterDelegate) (v : CompleterTreeView)
    (option : QStyleOptionViewItem) :
    (d.paint v option).titleRect.width = option.rect.right - 6 * d.m_padding - 17
    ∧ (d.paint v option).linkRect.width = option.rect.right - 6 * d.m_padding - 17
    ∧ (d.paint v option).titleElideWidth = option.rect.right - 6 * d.m_padding - 17
    ∧ (d.paint v option).linkElideWidth = option.rect.right - 6 * d.m_padding - 17
    ∧ (0 ≤ (d.paint v option).titleRect.width ↔ 6 * d.m_padding + 17 ≤ option.rect.right)
    ∧ (0 ≤ (d.paint v option).linkRect.width ↔ 6 * d.m_padding + 17 ≤ option.rect.right)
    ∧ (d.paint v option).iconRect.width = 16 := by
  simp only [LocationCompleterDelegate.paint, QRect.ofXYWH, QRect.width, QRect.right, QRect.x]
  refine ⟨?_, ?_, ?_, ?_, ?_, ?_, ?_⟩ <;> omega

/-- C9 (as stated, refuted): for the row `QRect(0, 0, 200, 41)` and padding 4 the
icon rectangle's left edge is at 8, two padding units from the row's left edge 0,
not one. -/
theorem paint_icon_left_not_one_padding :
    ((LocationCompleterDelegate.mk 41 4).paint (CompleterTreeView.new 16777215)
        ⟨QRect.ofXYWH 0 0 200 41, ⟨false, false, 0⟩, 3, 3, 14, 16⟩).iconRect.left = 8
    ∧ ((LocationCompleterDelegate.mk 41 4).paint (CompleterTreeView.new 16777215)
        ⟨QRect.ofXYWH 0 0 200 41, ⟨false, false, 0⟩, 3, 3, 14, 16⟩).iconRect.left
      ≠ (QRect.ofXYWH 0 0 200 41).left + 4 := by
  decide

/-- C9 (amended): `paint` places the icon in a 16 by 16 rectangle whose left edge
is at x = `2 * padding` (whatever the row's left edge is) and whose top is
`row top + height / 2 - 8` (`/` truncating), and then advances the left cursor
to the icon's right edge plus `2 * padding`, that is to `4 * padding + 15`. -/
theorem paint_icon_rect (d : LocationCompleterDelegate) (v : CompleterTreeView)
    (option : QStyleOptionViewItem) :
    (d.paint v option).iconRect.width = 16
    ∧ (d.paint v option).iconRect.height = 16
    ∧ (d.paint v option).iconRect.left = 2 * d.m_padding
    ∧ (d.paint v option).iconRect.top = option.rect.top + Int.tdiv option.rect.height 2 - 8
    ∧ (d.paint v option).leftPosition = (d.paint v option).iconRect.right + 2 * d.m_padding
    ∧ (d.paint v option).leftPosition = 4 * d.m_padding + 15 := by
  have h8 : Int.tdiv 16 2 = 8 := by decide
  simp only [LocationCompleterDelegate.paint, QRect.ofXYWH, QRect.width, QRect.height,
    QRect.right, QRect.left, QRect.top, h8]
  refine ⟨?_, ?_, ?_, ?_, ?_, ?_⟩ <;> omega

/-! ## The hover and focus state machine -/

/-- The invariant of the view: with the flag off the last-hovered row is the
current index; with the flag on the last-hovered row is a valid index. -/
def CompleterTreeView.Invariant (v : CompleterTreeView) : Prop :=
  (v.ignoreSelectedFlag = false → v.m_lastMouseIndex = v.currentIndex)
  ∧ (v.ignoreSelectedFlag = true → v.m_lastMouseIndex.isValid = true)

/-- The state after a delivered focus change satisfies the invariant. -/
theorem invariant_currentChanged (v : CompleterTreeView) (current previous : QModelIndex) :
    (CompleterTreeView.currentChanged { v with currentIndex := current } current
      previous).Invariant := by
  constructor
  · intro _; rfl
  · intro h; exact absurd h (by simp [CompleterTreeView.currentChanged,
      CompleterTreeView.repaint, CompleterTreeView.ignoreSelectedFlag])

/-- Forcing the focus somewhere keeps the invariant. -/
theorem invariant_setCurrentIndex (v : CompleterTreeView) (index : QModelIndex)
    (h : v.Invariant) : (v.setCurrentIndex index).Invariant := by
  unfold CompleterTreeView.setCurrentIndex
  split
  · exact h
  · exact invariant_currentChanged v index v.currentIndex

/-- A repaint request keeps the invariant. -/
theorem invariant_repaint (v : CompleterTreeView) (h : v.Invariant) : v.repaint.Invariant :=
  h

/-- A pointer move keeps the invariant. -/
theorem invariant_mouseMoveEvent (v : CompleterTreeView) (atCursor : QModelIndex)
    (h : v.Invariant) : (v.mouseMoveEvent atCursor).Invariant := by
  unfold CompleterTreeView.mouseMoveEvent
  by_cases hv : atCursor.isValid = true
  · have hnew : CompleterTreeView.Invariant
        { v with m_lastMouseIndex := atCursor, m_selectedItemByMousePosition := true } :=
      ⟨fun hf => Bool.noConfusion hf, fun _ => hv⟩
    simp only [hv, if_true]
    split
    · exact invariant_repaint _ hnew
    · exact hnew
  · simp only [hv]
    split
    · exact invariant_repaint _ h
    · exact h

/-- Every event keeps the invariant. -/
theorem invariant_handle (v : CompleterTreeView) (e : ViewEvent) (h : v.Invariant) :
    (v.handle e).Invariant := by
  cases e with
  | focusChange current => exact invariant_currentChanged v current v.currentIndex
  | pointerMove atCursor => exact invariant_mouseMoveEvent v atCursor h
  | keyPress defaultMove =>
    have hforce : (CompleterTreeView.keyPressEvent (fun s => s) v).Invariant := by
      unfold CompleterTreeView.keyPressEvent
      split
      · exact invariant_setCurrentIndex v _ h
      · exact h
    cases defaultMove with
    | none => exact hforce
    | some i => exact invariant_setCurrentIndex _ i hforce

/-- Every sequence of events keeps the invariant. -/
theorem invariant_run (es : List ViewEvent) (v : CompleterTreeView) (h : v.Invariant) :
    (v.run es).Invariant := by
  induction es generalizing v with
  | nil => exact h
  | cons e es ih => exact ih (v.handle e) (invariant_handle v e h)

/-- C10: in every state reached from a fresh view by focus changes, pointer
moves and key presses, (a) flag off implies last-hovered row = current index,
(b) flag on implies the last-hovered row is valid; hence when `keyPressEvent`
moves the focus before handing the event on, the flag was on and the row the
focus lands on is valid. -/
theorem reachable_invariant (maxH : Int) (es : List ViewEvent) :
    (((CompleterTreeView.new maxH).run es).ignoreSelectedFlag = false →
        ((CompleterTreeView.new maxH).run es).m_lastMouseIndex
          = ((CompleterTreeView.new maxH).run es).currentIndex)
    ∧ (((CompleterTreeView.new maxH).run es).ignoreSelectedFlag = true →
        ((CompleterTreeView.new maxH).run es).m_lastMouseIndex.isValid = true)
    ∧ ((CompleterTreeView.keyPressEvent id ((CompleterTreeView.new maxH).run es)).currentIndex
          ≠ ((CompleterTreeView.new maxH).run es).currentIndex →
        ((CompleterTreeView.new maxH).run es).ignoreSelectedFlag = true
        ∧ (CompleterTreeView.keyPressEvent id
            ((CompleterTreeView.new maxH).run es)).currentIndex.isValid = true) := by
  have hinit : (CompleterTreeView.new maxH).Invariant :=
    ⟨fun _ => rfl, fun h => Bool.noConfusion h⟩
  have hinv := invariant_run es _ hinit
  generalize (CompleterTreeView.new maxH).run es = s at hinv ⊢
  obtain ⟨ha, hb⟩ := hinv
  refine ⟨ha, hb, ?_⟩
  intro hne
  by_cases hc : s.currentIndex = s.m_lastMouseIndex
  · exact absurd (by simp [CompleterTreeView.keyPressEvent, hc]) hne
  · have hflag : s.ignoreSelectedFlag = true := by
      cases hf : s.ignoreSelectedFlag
      · exact absurd (ha hf).symm hc
      · rfl
    have hcur : (CompleterTreeView.keyPressEvent id s).currentIndex = s.m_lastMouseIndex := by
      have h2 : ¬ s.m_lastMouseIndex = s.currentIndex := fun e => hc e.symm
      simp [CompleterTreeView.keyPressEvent, CompleterTreeView.setCurrentIndex, hc, h2,
        CompleterTreeView.currentChanged, CompleterTreeView.repaint]
    exact ⟨hflag, by rw [hcur]; exact hb hflag⟩

/-- C10 at a concrete input: after a focus change to row 0 and a pointer move
over row 2, a key press moves the focus (from row 0), the flag is on and the
focus lands on a valid row. -/
theorem reachable_invariant_witness :
    ((CompleterTreeView.new 16777215).run
        [ViewEvent.focusChange ⟨0, 0, 1⟩, ViewEvent.pointerMove ⟨2, 0, 1⟩]).ignoreSelectedFlag = true
    ∧ (CompleterTreeView.keyPressEvent id ((CompleterTreeView.new 16777215).run
        [ViewEvent.focusChange ⟨0, 0, 1⟩, ViewEvent.pointerMove ⟨2, 0, 1⟩])).currentIndex.isValid
      = true :=
  (reachable_invariant 16777215
    [ViewEvent.focusChange ⟨0, 0, 1⟩, ViewEvent.pointerMove ⟨2, 0, 1⟩]).2.2 (by decide)
